import Mathlib

/-!
Verification of the voxel_demo visual-editor core against its specification.

The definitions below are a shallow embedding of the editor code in
`src/pages/Editor.tsx` and `src/services/apiKeysService.ts`:

* markup strings are modelled as `List Char`;
* the serializer's strip
  (`html.replace(/<style id="voxel-editor-styles">[\s\S]*?<\/style>/, '')`,
  a non-global, lazy JavaScript regex replace) is modelled by
  `stripVoxelStyles`: locate the leftmost occurrence of the literal opener
  followed by the earliest later occurrence of the literal closer and delete
  that span, returning the input unchanged when there is no such match;
* the live DOM tree of the iframe is the `Node` inductive; DOM attribute
  operations (`setAttribute`, `removeAttribute`, `hasAttribute`,
  `querySelector`, `querySelectorAll(...).forEach(removeAttribute)`) are
  modelled on association lists and by preorder traversals, and `outerHTML`
  by the printer `printNode`;
* element references held in React state are modelled as paths (lists of
  child indices) into the tree;
* the debounce machinery (`setTimeout`/`clearTimeout` with an 800 ms delay
  and commits via `updateHtml`) is modelled by an explicit state machine
  over absolute deadlines.
-/

namespace VoxelDemo

/-! ### The serializer strip (Editor.tsx `debouncedSave` and every commit) -/

/-- The literal opener of the editor-injected style block,
`<style id="voxel-editor-styles">`. -/
def opener : List Char := "<style id=\"voxel-editor-styles\">".toList

/-- The literal closer of a style block, `</style>`. -/
def closer : List Char := "</style>".toList

/-- Split a string at the first occurrence of `pat`: returns
`some (before, after)` with the input equal to `before ++ pat ++ after`
and `before` minimal, or `none` when `pat` does not occur. -/
def splitFirst (pat : List Char) : List Char → Option (List Char × List Char)
  | [] => if pat = [] then some ([], []) else none
  | c :: rest =>
    if pat.isPrefixOf (c :: rest) then some ([], (c :: rest).drop pat.length)
    else match splitFirst pat rest with
      | some (b, a) => some (c :: b, a)
      | none => none

/-- Boolean substring test, via `splitFirst`. -/
def containsSub (pat s : List Char) : Bool := (splitFirst pat s).isSome

/-- Model of the serializer's strip: delete the first
`<style id="voxel-editor-styles"> ... </style>` span (lazy match: up to the
first subsequent `</style>`); when the opener or a subsequent closer is
absent, return the markup unchanged. -/
def stripVoxelStyles (s : List Char) : List Char :=
  match splitFirst opener s with
  | none => s
  | some (before, rest) =>
    match splitFirst closer rest with
    | none => s
    | some (_, after) => before ++ after

/-- Whether the markup contains an injected style block: an occurrence of the
reserved opener with a closer somewhere after it. -/
def hasStyleBlock (s : List Char) : Bool :=
  match splitFirst opener s with
  | none => false
  | some (_, rest) => (splitFirst closer rest).isSome

/-- Concrete head fragment used to witness the strip characterization. -/
def xFrag : List Char := "<html><head>".toList

/-- Inner CSS content of the injected block in the witness document. -/
def mFrag : List Char := "body \x7b margin: 0; \x7d".toList

/-- Trailing fragment (rest of the document) in the witness document. -/
def yFrag : List Char :=
  "</head><body><div data-voxel-selected=\"true\">Hi</div></body></html>".toList

/-- A concrete already-clean document (no injected style block). -/
def cleanDocW : List Char := "<html><body><h1>Hi</h1></body></html>".toList

/-- Markup containing two injected style blocks back to back. -/
def twoBlocksDoc : List Char :=
  ("<style id=\"voxel-editor-styles\">a</style>" ++
    "<style id=\"voxel-editor-styles\">b</style>").toList

/-! ### The live DOM tree and attribute marking -/

/-- The selection marker attribute name, `data-voxel-selected`. -/
def selAttr : List Char := "data-voxel-selected".toList

/-- The hover marker attribute name, `data-voxel-hovered`. -/
def hovAttr : List Char := "data-voxel-hovered".toList

/-- The inline-editing flag attribute name, `contenteditable`. -/
def ceAttr : List Char := "contenteditable".toList

/-- The attribute value `true` used by the markers. -/
def trueVal : List Char := "true".toList

/-- Lower-case tag name of image elements (`tagName === 'IMG'`). -/
def imgTag : List Char := "img".toList

/-- The `src` attribute name. -/
def srcAttr : List Char := "src".toList

/-- Whether an attribute list has an entry for key `k`
(`element.hasAttribute(k)`). -/
def hasAttrKey (k : List Char) (attrs : List (List Char × List Char)) : Bool :=
  attrs.any (fun p => p.1 == k)

/-- The value of attribute `k`, if present (`element.getAttribute(k)`). -/
def getAttrVal (k : List Char) (attrs : List (List Char × List Char)) :
    Option (List Char) :=
  (attrs.find? (fun p => p.1 == k)).map (fun p => p.2)

/-- Model of `element.setAttribute(k, v)`: replace the existing entry or append one. -/
def setAttrKey (k v : List Char) (attrs : List (List Char × List Char)) :
    List (List Char × List Char) :=
  if hasAttrKey k attrs then attrs.map (fun p => if p.1 == k then (k, v) else p)
  else attrs ++ [(k, v)]

/-- Model of `element.removeAttribute(k)`: drop every entry for key `k`. -/
def removeAttrKey (k : List Char) (attrs : List (List Char × List Char)) :
    List (List Char × List Char) :=
  attrs.filter (fun p => !(p.1 == k))

/-- A DOM node in the iframe document: an element with a tag name, an
attribute list and children, or a text node. -/
inductive Node where
  | elem : List Char → List (List Char × List Char) → List Node → Node
  | text : List Char → Node

mutual

/-- Number of nodes in the tree carrying attribute `k` (presence, matching
the `[k]` attribute selector used by `querySelectorAll`). -/
def countAttr (k : List Char) : Node → Nat
  | .text _ => 0
  | .elem _ attrs kids => (if hasAttrKey k attrs then 1 else 0) + countAttrList k kids

/-- Model of `countAttr` over a child forest. -/
def countAttrList (k : List Char) : List Node → Nat
  | [] => 0
  | n :: rest => countAttr k n + countAttrList k rest

end

mutual

/-- Model of `querySelectorAll('[k]').forEach(el => el.removeAttribute(k))`: remove
attribute `k` from every node of the tree. -/
def clearAttrAll (k : List Char) : Node → Node
  | .text s => .text s
  | .elem t attrs kids => .elem t (removeAttrKey k attrs) (clearAttrAllList k kids)

/-- Model of `clearAttrAll` over a child forest. -/
def clearAttrAllList (k : List Char) : List Node → List Node
  | [] => []
  | n :: rest => clearAttrAll k n :: clearAttrAllList k rest

end

/-- Whether a node is an element whose attribute `k` has value `true`
(the `[k="true"]` selector). -/
def isMarkedTrue (k : List Char) : Node → Bool
  | .text _ => false
  | .elem _ attrs _ => getAttrVal k attrs == some trueVal

/-- Whether a node is an element carrying attribute `k`
(`element.hasAttribute(k)`). -/
def hasAttrNode (k : List Char) : Node → Bool
  | .text _ => false
  | .elem _ attrs _ => hasAttrKey k attrs

mutual

/-- Model of `document.querySelector('[k="true"]')`: the first node in document
(preorder) order whose attribute `k` equals `true`. -/
def findMarked (k : List Char) : Node → Option Node
  | .text _ => none
  | .elem t attrs kids =>
    if isMarkedTrue k (.elem t attrs kids) then some (.elem t attrs kids)
    else findMarkedList k kids

/-- Model of `findMarked` over a child forest. -/
def findMarkedList (k : List Char) : List Node → Option Node
  | [] => none
  | n :: rest =>
    match findMarked k n with
    | some m => some m
    | none => findMarkedList k rest

end

mutual

/-- Model of `selected.remove()` for the first preorder node marked
`data-voxel-selected="true"` strictly below this node: returns the updated
node and whether the marked node was found (and removed). -/
def deleteMarkedIn : Node → Node × Bool
  | .text s => (.text s, false)
  | .elem t attrs kids =>
    let r := deleteMarkedKids kids
    (.elem t attrs r.1, r.2)

/-- Model of `deleteMarkedIn` over a child forest: the first marked child (or marked
descendant of a child, in preorder) is removed from its parent's list. -/
def deleteMarkedKids : List Node → List Node × Bool
  | [] => ([], false)
  | n :: rest =>
    if isMarkedTrue selAttr n then (rest, true)
    else
      let rn := deleteMarkedIn n
      if rn.2 then (rn.1 :: rest, true)
      else
        let rr := deleteMarkedKids rest
        (n :: rr.1, rr.2)

end

/-- Model of `selected.cloneNode(true)` followed by
`clone.removeAttribute('data-voxel-selected')`: a deep copy whose root loses
the selection marker and whose descendants are identical. -/
def cloneClean : Node → Node
  | .text s => .text s
  | .elem t attrs kids => .elem t (removeAttrKey selAttr attrs) kids

mutual

/-- Model of `handleDuplicateElement`'s tree mutation: deep-clone the first preorder
`data-voxel-selected="true"` node strictly below this node and insert the
cleaned clone immediately after it in its parent's child list
(`parent.insertBefore(clone, selected.nextSibling)`). -/
def dupMarkedIn : Node → Node × Bool
  | .text s => (.text s, false)
  | .elem t attrs kids =>
    let r := dupMarkedKids kids
    (.elem t attrs r.1, r.2)

/-- Model of `dupMarkedIn` over a child forest. -/
def dupMarkedKids : List Node → List Node × Bool
  | [] => ([], false)
  | n :: rest =>
    if isMarkedTrue selAttr n then (n :: cloneClean n :: rest, true)
    else
      let rn := dupMarkedIn n
      if rn.2 then (rn.1 :: rest, true)
      else
        let rr := dupMarkedKids rest
        (n :: rr.1, rr.2)

end

/-- Serialization of an attribute list, ` k="v"` for each entry. -/
def printAttrs : List (List Char × List Char) → List Char
  | [] => []
  | (k, v) :: rest => (' ' :: (k ++ ('=' :: '"' :: (v ++ ['"'])))) ++ printAttrs rest

mutual

/-- Model of `outerHTML` of a node: `<tag attrs>children</tag>`, text verbatim. -/
def printNode : Node → List Char
  | .text s => s
  | .elem t attrs kids =>
    '<' :: (t ++ printAttrs attrs ++ ('>' :: printKids kids) ++
      ('<' :: '/' :: (t ++ ['>'])))

/-- Model of `printNode` over a child forest. -/
def printKids : List Node → List Char
  | [] => []
  | n :: rest => printNode n ++ printKids rest

end

/-- Node lookup along a path of child indices (models following a DOM
element reference held in React state). -/
def getAt : Node → List Nat → Option Node
  | n, [] => some n
  | .text _, _ :: _ => none
  | .elem _ _ kids, i :: p =>
    match kids.get? i with
    | some c => getAt c p
    | none => none

/-- Apply `f` to the node at the given path, leaving the tree unchanged when
the path dangles. -/
def modifyAt (f : Node → Node) : Node → List Nat → Node
  | n, [] => f n
  | .text s, _ :: _ => .text s
  | .elem t a kids, i :: p =>
    match kids.get? i with
    | some c => .elem t a (kids.set i (modifyAt f c p))
    | none => .elem t a kids

/-- Model of `element.setAttribute(k, v)` lifted to a node (no-op on text nodes). -/
def setAttrOnNode (k v : List Char) : Node → Node
  | .text s => .text s
  | .elem t a kids => .elem t (setAttrKey k v a) kids

/-- Insert `clone` immediately after child index `i`
(`parent.insertBefore(clone, child.nextSibling)`). -/
def insertCloneAfter (i : Nat) (clone : Node) : Node → Node
  | .text s => .text s
  | .elem t a kids => .elem t a (kids.take (i + 1) ++ clone :: kids.drop (i + 1))

/-! ### Selection / hover events on the iframe document -/

/-- One interaction event observed by the iframe listeners: a click whose
target is a real element (identified by its path), a click on the document
body / root (the background branch of `handleClick`), a mouseover on an
element, or a mouseout. -/
inductive UiEvent where
  | clickEl : List Nat → UiEvent
  | clickBg : UiEvent
  | mouseOverEl : List Nat → UiEvent
  | mouseOut : UiEvent

/-- The marker mutations performed by `handleClick` / `handleMouseOver` /
`handleMouseOut`: a click clears `data-voxel-selected` everywhere and sets it
on the target; the background branch touches no marker; mouseover does the
same for `data-voxel-hovered`; mouseout clears all hover markers. -/
def applyUiEvent (root : Node) : UiEvent → Node
  | .clickEl p => modifyAt (setAttrOnNode selAttr trueVal) (clearAttrAll selAttr root) p
  | .clickBg => root
  | .mouseOverEl p => modifyAt (setAttrOnNode hovAttr trueVal) (clearAttrAll hovAttr root) p
  | .mouseOut => clearAttrAll hovAttr root

/-- A whole interaction session: fold the events over the tree. -/
def applyUiEvents (root : Node) (evs : List UiEvent) : Node :=
  evs.foldl applyUiEvent root

/-! ### Editor state and the mutation handlers -/

/-- The editor-visible state around the iframe: the live tree, the selection
held in React state (as a path), the floating toolbar visibility, and the
list of strings committed through `updateHtml`. -/
structure EState where
  root : Node
  selPath : Option (List Nat)
  toolbarVisible : Bool
  committed : List (List Char)

/-- The string committed by every commit path:
`iframeDoc.documentElement.outerHTML` with the injected style block
stripped. -/
def commitOf (root : Node) : List Char := stripVoxelStyles (printNode root)

/-- Model of `handleDeleteElement` (Editor.tsx:604, toolbar delete): if a node is
marked selected, remove it, clear the selection state, hide the toolbar and
commit; silently do nothing otherwise. There is no `contenteditable` guard
on this path. The document root has no parent, so `remove()` on it is a DOM
no-op while the state updates and the commit still happen. -/
def handleDeleteElementToolbar (st : EState) : EState :=
  match findMarked selAttr st.root with
  | none => st
  | some _ =>
    let root' := if isMarkedTrue selAttr st.root then st.root
                 else (deleteMarkedIn st.root).1
    { root := root', selPath := none, toolbarVisible := false,
      committed := st.committed ++ [commitOf root'] }

/-- The Delete/Backspace branch of `handleKeyDown` (Editor.tsx:824): like the
toolbar delete but guarded — a no-op when the selected element carries the
`contenteditable` attribute. -/
def handleDeleteKeyDown (st : EState) : EState :=
  match findMarked selAttr st.root with
  | none => st
  | some sel =>
    if hasAttrNode ceAttr sel then st
    else
      let root' := if isMarkedTrue selAttr st.root then st.root
                   else (deleteMarkedIn st.root).1
      { root := root', selPath := none, toolbarVisible := false,
        committed := st.committed ++ [commitOf root'] }

/-- Model of `handleDuplicateElement` (Editor.tsx:641, toolbar duplicate): when a
marked node with a parent exists, deep-clone it, strip the marker from the
clone, insert the clone right after the original, hide the toolbar and
commit. The document root has no `parentElement`, so a marked root is a
no-op. The selection state is not touched. -/
def handleDuplicateElementIframe (st : EState) : EState :=
  match findMarked selAttr st.root with
  | none => st
  | some _ =>
    if isMarkedTrue selAttr st.root then st
    else
      let root' := (dupMarkedIn st.root).1
      { root := root', selPath := st.selPath, toolbarVisible := false,
        committed := st.committed ++ [commitOf root'] }

/-- Model of `handleDuplicateElement` (Editor.tsx:1543, property-panel duplicate via
the React-held element reference, modelled as a path): guarded by
`!selectedElement || !selectedElement.parentElement`. -/
def handleDuplicateElementRef (st : EState) : EState :=
  match st.selPath with
  | none => st
  | some [] => st
  | some p =>
    match getAt st.root p with
    | none => st
    | some sel =>
      let root' := modifyAt (insertCloneAfter (p.getLastD 0) (cloneClean sel))
        st.root p.dropLast
      { st with root := root', committed := st.committed ++ [commitOf root'] }

/-- Model of `handleImageReplace` (Editor.tsx:1571): a no-op unless the React-held
selected element is an `IMG`; otherwise set its `src` and commit. -/
def handleImageReplace (newSrc : List Char) (st : EState) : EState :=
  match st.selPath with
  | none => st
  | some p =>
    match getAt st.root p with
    | none => st
    | some (.text _) => st
    | some (.elem t _ _) =>
      if t = imgTag then
        let root' := modifyAt (setAttrOnNode srcAttr newSrc) st.root p
        { st with root := root', committed := st.committed ++ [commitOf root'] }
      else st

/-! ### The debounced persistence bridge (timers in milliseconds) -/

/-- State of the debounce machinery: the pending `setTimeout` deadline (an
absolute time), the serialization the live document would produce right now,
whether the focused element still carries `contenteditable`, and the strings
committed so far. -/
structure DState where
  timerDeadline : Option Nat
  docHtml : List Char
  editable : Bool
  committed : List (List Char)

/-- Let a pending timer that is due by time `t` fire: the `debouncedSave`
callback serializes the current document and commits the stripped string. -/
def fireIfDue (t : Nat) (s : DState) : DState :=
  match s.timerDeadline with
  | some d =>
    if d ≤ t then
      { s with timerDeadline := none,
               committed := s.committed ++ [stripVoxelStyles s.docHtml] }
    else s
  | none => s

/-- Model of `handleInput` at time `t` with the document now serializing to `h`:
any due timer fires first; then `debouncedSave` clears the pending timer and
restarts it 800 ms out. -/
def inputEv (t : Nat) (h : List Char) (s : DState) : DState :=
  let s := fireIfDue t s
  { s with docHtml := h, timerDeadline := some (t + 800) }

/-- Model of `handleBlur` at time `t`: when the target is editable, cancel the pending
timer, drop the `contenteditable` flag, and synchronously commit the
stripped serialization as of blur time. -/
def blurEv (t : Nat) (s : DState) : DState :=
  let s := fireIfDue t s
  if s.editable then
    { s with timerDeadline := none, editable := false,
             committed := s.committed ++ [stripVoxelStyles s.docHtml] }
  else s

/-- Let time run to infinity with no further events: a pending timer fires. -/
def flushEnd (s : DState) : DState :=
  match s.timerDeadline with
  | some _ =>
    { s with timerDeadline := none,
             committed := s.committed ++ [stripVoxelStyles s.docHtml] }
  | none => s

/-- Process a sequence of timed input events. -/
def processInputs (l : List (Nat × List Char)) (s : DState) : DState :=
  l.foldl (fun s e => inputEv e.1 e.2 s) s

/-- Each event in the list arrives strictly before the deadline pending when
it is processed (`d` is the deadline pending before the first event); this is
the "burst" hypothesis: consecutive input events less than 800 ms apart. -/
def arrivesBeforeDeadline : Nat → List (Nat × List Char) → Bool
  | _, [] => true
  | d, (t, _) :: rest => decide (t < d) && arrivesBeforeDeadline (t + 800) rest

/-! ### Generation bridge: response cleaning and the mock fallback -/

/-- Whitespace as trimmed by JavaScript `String.prototype.trim`: the
ECMAScript WhiteSpace production (TAB, VT, FF, SP, NBSP, ZWNBSP and the
Unicode Space_Separator characters U+1680, U+2000..U+200A, U+202F, U+205F,
U+3000) together with the LineTerminator production (LF, CR, LS U+2028,
PS U+2029). -/
def isJsWs (c : Char) : Bool :=
  c == ' ' || c == '\t' || c == '\n' || c == '\r' ||
  c == '\x0B' || c == '\x0C' ||
  c.toNat == 0xA0 || c.toNat == 0x1680 ||
  (decide (0x2000 ≤ c.toNat) && decide (c.toNat ≤ 0x200A)) ||
  c.toNat == 0x2028 || c.toNat == 0x2029 || c.toNat == 0x202F ||
  c.toNat == 0x205F || c.toNat == 0x3000 || c.toNat == 0xFEFF

/-- Model of `s.trim()`: drop whitespace from both ends. -/
def trimList (s : List Char) : List Char :=
  ((s.dropWhile isJsWs).reverse.dropWhile isJsWs).reverse

/-- The fenced-code opener with language tag, `` ```html ``. -/
def fenceHtml : List Char := "```html".toList

/-- The bare fence marker, `` ``` ``. -/
def fence : List Char := "```".toList

/-- The leading-fence strip of `cleanHtmlResponse`: `slice(7)` after a
`` ```html `` prefix, else `slice(3)` after a bare `` ``` `` prefix. -/
def stripLeadingFence (cleaned : List Char) : List Char :=
  if fenceHtml.isPrefixOf cleaned then cleaned.drop 7
  else if fence.isPrefixOf cleaned then cleaned.drop 3
  else cleaned

/-- The trailing-fence strip of `cleanHtmlResponse`: `slice(0, -3)` when the
string ends with `` ``` ``. -/
def stripTrailingFence (cleaned : List Char) : List Char :=
  if fence.isSuffixOf cleaned then cleaned.take (cleaned.length - 3) else cleaned

/-- Model of `cleanHtmlResponse` (apiKeysService.ts:649): trim, strip a leading
`` ```html `` (7 chars) or `` ``` `` (3 chars), strip a trailing `` ``` ``,
trim again. -/
def cleanHtmlResponse (html : List Char) : List Char :=
  trimList (stripTrailingFence (stripLeadingFence (trimList html)))

/-- Model of `MOCK_AI_RESPONSES.button` (Editor.tsx:76). -/
def mockButton : List Char :=
  ("<button style=\"background: linear-gradient(135deg, #667eea 0%, #764ba2 100%); " ++
   "color: white; padding: 12px 24px; border: none; border-radius: 8px; " ++
   "font-weight: 600; cursor: pointer;\">New Button</button>").toList

/-- Model of `MOCK_AI_RESPONSES.header` (Editor.tsx:77). -/
def mockHeader : List Char :=
  ("<header style=\"background: white; padding: 16px 32px; display: flex; " ++
   "justify-content: space-between; align-items: center; box-shadow: 0 2px 8px " ++
   "rgba(0,0,0,0.1);\"><h1 style=\"margin: 0; font-size: 24px;\">New Header</h1>" ++
   "<nav><a href=\"#\" style=\"margin: 0 16px; color: #666;\">Link 1</a>" ++
   "<a href=\"#\" style=\"margin: 0 16px; color: #666;\">Link 2</a></nav></header>").toList

/-- Model of `MOCK_AI_RESPONSES.card` (Editor.tsx:78). -/
def mockCard : List Char :=
  ("<div style=\"background: white; border-radius: 12px; padding: 24px; " ++
   "box-shadow: 0 2px 8px rgba(0,0,0,0.08);\"><h3 style=\"margin: 0 0 12px 0;\">" ++
   "Card Title</h3><p style=\"color: #666; margin: 0;\">This is a new card " ++
   "component with some description text.</p></div>").toList

/-- Model of `MOCK_AI_RESPONSES.form` (Editor.tsx:79). -/
def mockForm : List Char :=
  ("<form style=\"max-width: 400px;\"><div style=\"margin-bottom: 16px;\">" ++
   "<label style=\"display: block; margin-bottom: 8px; font-weight: 500;\">Email" ++
   "</label><input type=\"email\" placeholder=\"you@example.com\" style=\"width: " ++
   "100%; padding: 12px; border: 1px solid #d1d5db; border-radius: 8px;\"/></div>" ++
   "<button type=\"submit\" style=\"width: 100%; background: #764ba2; color: white; " ++
   "padding: 12px; border: none; border-radius: 8px; font-weight: 600;\">Submit" ++
   "</button></form>").toList

/-- Prefix of the default mock response, up to the interpolated prompt. -/
def mockDefaultPre : List Char :=
  ("<div style=\"padding: 24px; background: linear-gradient(135deg, #f5f7fa 0%, " ++
   "#c3cfe2 100%); border-radius: 12px; text-align: center;\">\n    " ++
   "<h3 style=\"margin: 0 0 12px 0; color: #333;\">Generated Content</h3>\n    " ++
   "<p style=\"color: #666; margin: 0;\">This is a placeholder for: \"").toList

/-- Suffix of the default mock response, after the interpolated prompt. -/
def mockDefaultPost : List Char := "\"</p>\n  </div>".toList

/-- Model of `getMockResponse` (Editor.tsx:95): the deterministic keyword-driven
fallback generator. -/
def getMockResponse (prompt : List Char) : List Char :=
  let lower := prompt.map Char.toLower
  if containsSub ("button".toList) lower then mockButton
  else if containsSub ("header".toList) lower || containsSub ("nav".toList) lower then
    mockHeader
  else if containsSub ("card".toList) lower || containsSub ("box".toList) lower then
    mockCard
  else if containsSub ("form".toList) lower || containsSub ("input".toList) lower then
    mockForm
  else mockDefaultPre ++ prompt ++ mockDefaultPost

/-! ### Concrete states used by witnesses and counterexamples -/

/-- A small document tree with no markers: `html > body > (div, p)`. -/
def w3root : Node :=
  .elem ("html".toList) []
    [.elem ("body".toList) []
      [.elem ("div".toList) [] [], .elem ("p".toList) [] []]]

/-- A concrete interaction session: select the div, hover the p, select the
p, move the pointer out. -/
def w3evs : List UiEvent :=
  [.clickEl [0, 0], .mouseOverEl [0, 1], .clickEl [0, 1], .mouseOut]

/-- Editor state whose selected `div` is under active text editing
(`contenteditable` present). -/
def ceState : EState :=
  { root := .elem ("html".toList) []
      [.elem ("body".toList) []
        [.elem ("div".toList) [(selAttr, trueVal), (ceAttr, trueVal)]
          [.text ("Edit me".toList)]]],
    selPath := some [0, 0], toolbarVisible := true, committed := [] }

/-- Editor state with a plain selected `div` (no text editing). -/
def delState : EState :=
  { root := .elem ("html".toList) []
      [.elem ("body".toList) []
        [.elem ("div".toList) [(selAttr, trueVal)] [.text ("Hi".toList)]]],
    selPath := some [0, 0], toolbarVisible := true, committed := [] }

/-- Editor state whose document still holds the injected style block in the
head and a selected `div` in the body. -/
def dupState : EState :=
  { root := .elem ("html".toList) []
      [.elem ("head".toList) []
        [.elem ("style".toList) [("id".toList, "voxel-editor-styles".toList)]
          [.text ("body: x".toList)]],
       .elem ("body".toList) []
        [.elem ("div".toList) [(selAttr, trueVal)] [.text ("Hi".toList)]]],
    selPath := some [1, 0], toolbarVisible := true, committed := [] }

/-- Editor state with nothing selected at all. -/
def noneState : EState :=
  { root := .elem ("html".toList) []
      [.elem ("body".toList) [] [.elem ("div".toList) [] [.text ("Hi".toList)]]],
    selPath := none, toolbarVisible := false, committed := [] }

/-- The provider response shape `{ html, success, error? }`. -/
structure ProviderResponse where
  html : List Char
  success : Bool
  error : Option (List Char)

/-- A dummy provider response (unused when no provider is configured). -/
def noResp : ProviderResponse := { html := [], success := false, error := none }

/-- Observable outcome of one `handleGenerate` run: the preview content set
by `setGeneratedHtml`, whether `message.error` fired, and whether the panel
displays the "(Using mock responses ...)" notice (shown iff no provider is
configured). -/
structure GenOutcome where
  generatedHtml : Option (List Char)
  errorShown : Bool
  mockNoticeShown : Bool

/-- Model of `handleGenerate` (Editor.tsx:147): empty instructions are rejected early;
with a configured provider the response is used on success and the mock is
substituted (with an error message) on failure; with no provider configured
the deterministic mock generator answers and no error is shown. -/
def handleGenerate (llmConfigured : Bool) (resp : ProviderResponse)
    (prompt : List Char) : GenOutcome :=
  if trimList prompt = [] then
    { generatedHtml := none, errorShown := false, mockNoticeShown := !llmConfigured }
  else if llmConfigured then
    if resp.success then
      { generatedHtml := some resp.html, errorShown := false, mockNoticeShown := false }
    else
      { generatedHtml := some (getMockResponse prompt), errorShown := true,
        mockNoticeShown := false }
  else
    { generatedHtml := some (getMockResponse prompt), errorShown := false,
      mockNoticeShown := true }

/-! ### Theorems: the serializer strip -/

theorem splitFirst_cons (pat : List Char) (c : Char) (rest : List Char) :
    splitFirst pat (c :: rest) =
      if pat.isPrefixOf (c :: rest) then some ([], (c :: rest).drop pat.length)
      else match splitFirst pat rest with
        | some (b, a) => some (c :: b, a)
        | none => none := rfl

/-- Model of `splitFirst` finds the occurrence of `pat` at the seam of `x ++ pat ++ y`
when no occurrence of `pat` starts strictly earlier (equivalently, `pat` is
not an infix of `(x ++ pat).dropLast`). -/
theorem splitFirst_append (pat x y : List Char) (hne : pat ≠ [])
    (h : ¬ pat <:+: (x ++ pat).dropLast) :
    splitFirst pat (x ++ pat ++ y) = some (x, y) := by
  induction x with
  | nil =>
    obtain ⟨p, ps, rfl⟩ := List.exists_cons_of_ne_nil hne
    rw [List.nil_append, List.cons_append, splitFirst_cons]
    have hpre : (p :: ps).isPrefixOf (p :: (ps ++ y)) := by
      rw [List.isPrefixOf_iff_prefix, ← List.cons_append]
      exact List.prefix_append _ _
    rw [if_pos hpre]
    have hdrop : (p :: (ps ++ y)).drop (p :: ps).length = y := by
      rw [← List.cons_append]
      exact List.drop_left _ _
    rw [hdrop]
  | cons c x' ih =>
    have hxp : x' ++ pat ≠ [] := fun hc => hne (List.append_eq_nil.mp hc).2
    have hdrop : ((c :: x') ++ pat).dropLast = c :: (x' ++ pat).dropLast := by
      rw [List.cons_append]
      exact List.dropLast_cons_of_ne_nil hxp
    have hpre : ¬ pat.isPrefixOf ((c :: x') ++ pat ++ y) := by
      intro hp
      apply h
      have hp' : pat <+: (c :: x') ++ pat ++ y := List.isPrefixOf_iff_prefix.mp hp
      have hd : ((c :: x') ++ pat).dropLast <+: (c :: x') ++ pat ++ y :=
        (List.dropLast_prefix _).trans (List.prefix_append _ _)
      have hlen : pat.length ≤ ((c :: x') ++ pat).dropLast.length := by
        simp [List.length_dropLast, List.length_append]
      exact (List.prefix_of_prefix_length_le hp' hd hlen).isInfix
    have hih : ¬ pat <:+: (x' ++ pat).dropLast := by
      intro hi
      exact h (hdrop ▸ List.infix_cons hi)
    have hstep : (c :: x') ++ pat ++ y = c :: (x' ++ pat ++ y) := by
      simp
    rw [hstep] at hpre
    rw [hstep, splitFirst_cons, if_neg hpre, ih hih]

/-- Strip of a string with no injected style block is the identity; in
particular, when the opener is absent the markup comes back unchanged
(degrading gracefully instead of throwing). -/
theorem strip_of_not_hasStyleBlock (s : List Char)
    (h : hasStyleBlock s = false) : stripVoxelStyles s = s := by
  unfold stripVoxelStyles
  unfold hasStyleBlock at h
  cases ho : splitFirst opener s with
  | none => rfl
  | some br =>
    obtain ⟨b, rest⟩ := br
    rw [ho] at h
    simp only at h ⊢
    cases hc : splitFirst closer rest with
    | none => rfl
    | some ma =>
      rw [hc] at h
      simp at h

/-- The opener literal is nonempty. -/
theorem opener_ne_nil : opener ≠ [] := by decide

/-- The closer literal is nonempty. -/
theorem closer_ne_nil : closer ≠ [] := by decide

/-- C1 (amended): every commit path commits `stripVoxelStyles` of the full
serialization, and the strip removes exactly the first injected style block
`<style id="voxel-editor-styles"> ... </style>` — the surrounding markup,
including any `data-voxel-selected` / `data-voxel-hovered` marker attributes
it contains, is passed through to the committed string verbatim. The
hypotheses say that the designated block is the first one: no occurrence of
the opener starts before it and no closer occurs inside its content. -/
theorem strip_removes_first_block (x m y : List Char)
    (hx : ¬ opener <:+: (x ++ opener).dropLast)
    (hm : ¬ closer <:+: (m ++ closer).dropLast) :
    stripVoxelStyles (x ++ opener ++ m ++ closer ++ y) = x ++ y := by
  have h1 : splitFirst opener (x ++ opener ++ (m ++ closer ++ y)) =
      some (x, m ++ closer ++ y) :=
    splitFirst_append opener x _ opener_ne_nil hx
  have h2 : splitFirst closer (m ++ closer ++ y) = some (m, y) :=
    splitFirst_append closer m y closer_ne_nil hm
  have hassoc : x ++ opener ++ m ++ closer ++ y =
      x ++ opener ++ (m ++ closer ++ y) := by simp
  rw [hassoc]
  unfold stripVoxelStyles
  rw [h1]
  simp only
  rw [h2]

/-- Witness for `strip_removes_first_block`: a concrete serialized document
with the injected block between head markup and a body whose selected `div`
still carries the marker attribute in the committed output. -/
theorem strip_removes_first_block_witness :
    (¬ opener <:+: (xFrag ++ opener).dropLast) ∧
    (¬ closer <:+: (mFrag ++ closer).dropLast) ∧
    stripVoxelStyles (xFrag ++ opener ++ mFrag ++ closer ++ yFrag) =
      xFrag ++ yFrag :=
  ⟨by decide, by decide,
    strip_removes_first_block xFrag mFrag yFrag (by decide) (by decide)⟩

/-- C2 (amended): stripping markup that contains no injected style block
(in particular, markup in which the expected opener marker is absent) returns
it unchanged — the degenerate case degrades gracefully instead of throwing —
and stripping is idempotent whenever one strip leaves no further style block.
Unconditional idempotence fails: see the two-block counterexample. -/
theorem strip_clean_noop_and_conditional_idem (s : List Char) :
    (hasStyleBlock s = false → stripVoxelStyles s = s) ∧
    (hasStyleBlock (stripVoxelStyles s) = false →
      stripVoxelStyles (stripVoxelStyles s) = stripVoxelStyles s) :=
  ⟨strip_of_not_hasStyleBlock s, strip_of_not_hasStyleBlock _⟩

/-- Witness for `strip_clean_noop_and_conditional_idem` at a concrete clean
document: both hypotheses hold and the strip is a no-op (hence idempotent). -/
theorem strip_clean_noop_witness :
    stripVoxelStyles cleanDocW = cleanDocW ∧
    stripVoxelStyles (stripVoxelStyles cleanDocW) = stripVoxelStyles cleanDocW :=
  ⟨(strip_clean_noop_and_conditional_idem cleanDocW).1 (by decide),
   (strip_clean_noop_and_conditional_idem cleanDocW).2 (by decide)⟩

/-- Counterexample to C2 as stated: the strip is a replace-first, so on markup
with two injected style blocks, stripping twice removes the second block as
well and does not agree with stripping once. -/
theorem strip_not_idempotent_two_blocks :
    stripVoxelStyles (stripVoxelStyles twoBlocksDoc) ≠
      stripVoxelStyles twoBlocksDoc := by decide

/-! ### Theorems: attribute lists -/

theorem hasAttrKey_remove_self (k : List Char) (a : List (List Char × List Char)) :
    hasAttrKey k (removeAttrKey k a) = false := by
  induction a with
  | nil => rfl
  | cons p rest ih =>
    by_cases h : p.1 == k
    · simpa [removeAttrKey, List.filter_cons, h] using ih
    · simp only [Bool.not_eq_true] at h
      simpa [removeAttrKey, hasAttrKey, List.filter_cons, h] using ih

theorem hasAttrKey_remove_other (k k' : List Char) (hk : k' ≠ k)
    (a : List (List Char × List Char)) :
    hasAttrKey k' (removeAttrKey k a) = hasAttrKey k' a := by
  induction a with
  | nil => rfl
  | cons p rest ih =>
    by_cases h : p.1 == k
    · have hp : p.1 = k := by simpa using h
      have h' : (p.1 == k') = false := by
        rw [hp]
        exact beq_eq_false_iff_ne.mpr (fun hc => hk hc.symm)
      simp only [removeAttrKey, List.filter_cons, h, Bool.not_true, if_neg,
        Bool.false_eq_true, not_false_iff, hasAttrKey, List.any_cons, h'] at ih ⊢
      rw [ih]
      simp
    · simp only [Bool.not_eq_true] at h
      simp only [removeAttrKey, List.filter_cons, h, Bool.not_false, if_pos,
        hasAttrKey, List.any_cons] at ih ⊢
      rw [ih]

theorem any_setmap (k k' v : List Char) (hkk : (k == k') = false) :
    ∀ a : List (List Char × List Char),
      ((a.map (fun p => if p.1 == k then (k, v) else p)).any (fun p => p.1 == k')) =
        a.any (fun p => p.1 == k')
  | [] => rfl
  | p :: rest => by
    simp only [List.map_cons, List.any_cons, any_setmap k k' v hkk rest]
    congr 1
    by_cases h : p.1 == k
    · have hp : p.1 = k := by simpa using h
      rw [if_pos h]
      show (k == k') = (p.1 == k')
      rw [hp]
    · rw [if_neg h]

theorem hasAttrKey_set_other (k k' v : List Char) (hk : k' ≠ k)
    (a : List (List Char × List Char)) :
    hasAttrKey k' (setAttrKey k v a) = hasAttrKey k' a := by
  have hkk : (k == k') = false := beq_eq_false_iff_ne.mpr (fun hc => hk hc.symm)
  unfold setAttrKey
  by_cases hmem : hasAttrKey k a
  · rw [if_pos hmem]
    exact any_setmap k k' v hkk a
  · rw [if_neg hmem]
    unfold hasAttrKey
    rw [List.any_append]
    simp [hkk]

theorem getAttrVal_remove_self (k : List Char) (a : List (List Char × List Char)) :
    getAttrVal k (removeAttrKey k a) = none := by
  induction a with
  | nil => rfl
  | cons p rest ih =>
    by_cases h : p.1 == k
    · simpa [removeAttrKey, List.filter_cons, h] using ih
    · simp only [Bool.not_eq_true] at h
      simpa [removeAttrKey, getAttrVal, List.filter_cons, List.find?_cons, h] using ih

/-! ### Theorems: marker counts over the tree -/

mutual

theorem countAttr_clear_self (k : List Char) (n : Node) :
    countAttr k (clearAttrAll k n) = 0 := by
  cases n with
  | text s => rfl
  | elem t a kids =>
    simp [clearAttrAll, countAttr, hasAttrKey_remove_self,
      countAttrList_clear_self k kids]

theorem countAttrList_clear_self (k : List Char) (l : List Node) :
    countAttrList k (clearAttrAllList k l) = 0 := by
  cases l with
  | nil => rfl
  | cons n rest =>
    simp [clearAttrAllList, countAttrList, countAttr_clear_self k n,
      countAttrList_clear_self k rest]

end

mutual

theorem countAttr_clear_other (k k' : List Char) (hk : k' ≠ k) (n : Node) :
    countAttr k' (clearAttrAll k n) = countAttr k' n := by
  cases n with
  | text s => rfl
  | elem t a kids =>
    simp [clearAttrAll, countAttr, hasAttrKey_remove_other k k' hk,
      countAttrList_clear_other k k' hk kids]

theorem countAttrList_clear_other (k k' : List Char) (hk : k' ≠ k) (l : List Node) :
    countAttrList k' (clearAttrAllList k l) = countAttrList k' l := by
  cases l with
  | nil => rfl
  | cons n rest =>
    simp [clearAttrAllList, countAttrList, countAttr_clear_other k k' hk n,
      countAttrList_clear_other k k' hk rest]

end

theorem countAttr_setAttrOnNode_le (k v : List Char) (n : Node) :
    countAttr k (setAttrOnNode k v n) ≤ countAttr k n + 1 := by
  cases n with
  | text s => simp [setAttrOnNode, countAttr]
  | elem t a kids =>
    simp only [setAttrOnNode, countAttr]
    split_ifs <;> omega

theorem countAttr_setAttrOnNode_other (k k' v : List Char) (hk : k' ≠ k) (n : Node) :
    countAttr k' (setAttrOnNode k v n) = countAttr k' n := by
  cases n with
  | text s => rfl
  | elem t a kids =>
    simp [setAttrOnNode, countAttr, hasAttrKey_set_other k k' v hk]

theorem countAttrList_set_le (k : List Char) :
    ∀ (l : List Node) (i : Nat) (c c' : Node), l.get? i = some c →
      countAttr k c' ≤ countAttr k c + 1 →
      countAttrList k (l.set i c') ≤ countAttrList k l + 1
  | [], i, c, c', h, _ => by simp at h
  | n :: rest, 0, c, c', h, hle => by
    simp only [List.get?] at h
    injection h with h
    subst h
    simp only [List.set, countAttrList]
    omega
  | n :: rest, i + 1, c, c', h, hle => by
    simp only [List.get?] at h
    have := countAttrList_set_le k rest i c c' h hle
    simp only [List.set, countAttrList]
    omega

theorem countAttrList_set_eq (k : List Char) :
    ∀ (l : List Node) (i : Nat) (c c' : Node), l.get? i = some c →
      countAttr k c' = countAttr k c →
      countAttrList k (l.set i c') = countAttrList k l
  | [], i, c, c', h, _ => by simp at h
  | n :: rest, 0, c, c', h, heq => by
    simp only [List.get?] at h
    injection h with h
    subst h
    simp only [List.set, countAttrList]
    omega
  | n :: rest, i + 1, c, c', h, heq => by
    simp only [List.get?] at h
    have := countAttrList_set_eq k rest i c c' h heq
    simp only [List.set, countAttrList]
    omega

theorem countAttr_modifyAt_le (k : List Char) (f : Node → Node)
    (hf : ∀ m, countAttr k (f m) ≤ countAttr k m + 1) :
    ∀ (p : List Nat) (n : Node),
      countAttr k (modifyAt f n p) ≤ countAttr k n + 1
  | [], n => by cases n <;> exact hf _
  | i :: p, .text s => by simp [modifyAt, countAttr]
  | i :: p, .elem t a kids => by
    simp only [modifyAt]
    cases hg : kids.get? i with
    | none => simp [countAttr]
    | some c =>
      simp only [countAttr]
      have h1 := countAttr_modifyAt_le k f hf p c
      have h2 := countAttrList_set_le k kids i c (modifyAt f c p) hg h1
      omega

theorem countAttr_modifyAt_eq (k : List Char) (f : Node → Node)
    (hf : ∀ m, countAttr k (f m) = countAttr k m) :
    ∀ (p : List Nat) (n : Node),
      countAttr k (modifyAt f n p) = countAttr k n
  | [], n => by cases n <;> exact hf _
  | i :: p, .text s => by simp [modifyAt]
  | i :: p, .elem t a kids => by
    simp only [modifyAt]
    cases hg : kids.get? i with
    | none => simp [countAttr]
    | some c =>
      simp only [countAttr]
      have h1 := countAttr_modifyAt_eq k f hf p c
      have h2 := countAttrList_set_eq k kids i c (modifyAt f c p) hg h1
      omega

theorem hovAttr_ne_selAttr : hovAttr ≠ selAttr := by decide

theorem selAttr_ne_hovAttr : selAttr ≠ hovAttr := by decide

/-- One interaction event preserves the single-selection / single-hover
bounds. -/
theorem applyUiEvent_inv (root : Node) (e : UiEvent)
    (hs : countAttr selAttr root ≤ 1) (hh : countAttr hovAttr root ≤ 1) :
    countAttr selAttr (applyUiEvent root e) ≤ 1 ∧
    countAttr hovAttr (applyUiEvent root e) ≤ 1 := by
  cases e with
  | clickEl p =>
    constructor
    · have h1 := countAttr_modifyAt_le selAttr (setAttrOnNode selAttr trueVal)
        (fun m => countAttr_setAttrOnNode_le selAttr trueVal m) p
        (clearAttrAll selAttr root)
      have h0 := countAttr_clear_self selAttr root
      simp only [applyUiEvent]
      omega
    · have h1 := countAttr_modifyAt_eq hovAttr (setAttrOnNode selAttr trueVal)
        (fun m => countAttr_setAttrOnNode_other selAttr hovAttr trueVal
          hovAttr_ne_selAttr m) p (clearAttrAll selAttr root)
      have h0 := countAttr_clear_other selAttr hovAttr hovAttr_ne_selAttr root
      simp only [applyUiEvent]
      omega
  | clickBg => exact ⟨hs, hh⟩
  | mouseOverEl p =>
    constructor
    · have h1 := countAttr_modifyAt_eq selAttr (setAttrOnNode hovAttr trueVal)
        (fun m => countAttr_setAttrOnNode_other hovAttr selAttr trueVal
          selAttr_ne_hovAttr m) p (clearAttrAll hovAttr root)
      have h0 := countAttr_clear_other hovAttr selAttr selAttr_ne_hovAttr root
      simp only [applyUiEvent]
      omega
    · have h1 := countAttr_modifyAt_le hovAttr (setAttrOnNode hovAttr trueVal)
        (fun m => countAttr_setAttrOnNode_le hovAttr trueVal m) p
        (clearAttrAll hovAttr root)
      have h0 := countAttr_clear_self hovAttr root
      simp only [applyUiEvent]
      omega
  | mouseOut =>
    constructor
    · have h0 := countAttr_clear_other hovAttr selAttr selAttr_ne_hovAttr root
      simp only [applyUiEvent]
      omega
    · have h0 := countAttr_clear_self hovAttr root
      simp only [applyUiEvent]
      omega

/-- C3: for every sequence of click / mouseover / mouseout events handled by
the iframe listeners, starting from a tree in which at most one element
carries `data-voxel-selected` and at most one carries `data-voxel-hovered`
(in particular from a freshly rendered, unmarked tree), the same bounds hold
at every observable point: after every prefix of the event sequence at most
one element carries each marker, because `handleClick` and `handleMouseOver`
first clear the marker from every previous holder before setting it on the
new target. -/
theorem selection_hover_single_marker (evs : List UiEvent) :
    ∀ root : Node, countAttr selAttr root ≤ 1 → countAttr hovAttr root ≤ 1 →
      countAttr selAttr (applyUiEvents root evs) ≤ 1 ∧
      countAttr hovAttr (applyUiEvents root evs) ≤ 1 := by
  induction evs with
  | nil => exact fun root hs hh => ⟨hs, hh⟩
  | cons e rest ih =>
    intro root hs hh
    have h := applyUiEvent_inv root e hs hh
    simpa [applyUiEvents, List.foldl_cons] using ih (applyUiEvent root e) h.1 h.2

/-- Witness for `selection_hover_single_marker`: a concrete unmarked document
and a concrete click / hover session. -/
theorem selection_hover_single_marker_witness :
    countAttr selAttr (applyUiEvents w3root w3evs) ≤ 1 ∧
    countAttr hovAttr (applyUiEvents w3root w3evs) ≤ 1 :=
  selection_hover_single_marker w3evs w3root (by decide) (by decide)

/-! ### Theorems: delete and duplicate -/

theorem isMarkedTrue_false_of_findMarked_none (k : List Char) (n : Node)
    (h : findMarked k n = none) : isMarkedTrue k n = false := by
  cases n with
  | text s => rfl
  | elem t a kids =>
    by_cases hm : isMarkedTrue k (.elem t a kids)
    · simp [findMarked, hm] at h
    · simpa using hm

theorem findMarkedList_none_of_cons (k : List Char) (n : Node) (rest : List Node)
    (h : findMarkedList k (n :: rest) = none) :
    findMarked k n = none ∧ findMarkedList k rest = none := by
  cases hfn : findMarked k n with
  | some m => simp [findMarkedList, hfn] at h
  | none =>
    refine ⟨rfl, ?_⟩
    simpa [findMarkedList, hfn] using h

mutual

theorem deleteMarkedIn_not_found (n : Node) (h : findMarked selAttr n = none) :
    deleteMarkedIn n = (n, false) := by
  cases n with
  | text s => rfl
  | elem t a kids =>
    by_cases hm : isMarkedTrue selAttr (.elem t a kids)
    · simp [findMarked, hm] at h
    · have hkids : findMarkedList selAttr kids = none := by
        simpa [findMarked, hm] using h
      simp [deleteMarkedIn, deleteMarkedKids_not_found kids hkids]

theorem deleteMarkedKids_not_found (l : List Node)
    (h : findMarkedList selAttr l = none) :
    deleteMarkedKids l = (l, false) := by
  cases l with
  | nil => rfl
  | cons n rest =>
    obtain ⟨hn, hrest⟩ := findMarkedList_none_of_cons selAttr n rest h
    have hm : isMarkedTrue selAttr n = false :=
      isMarkedTrue_false_of_findMarked_none selAttr n hn
    simp [deleteMarkedKids, hm, deleteMarkedIn_not_found n hn,
      deleteMarkedKids_not_found rest hrest]

end

mutual

theorem dupMarkedIn_not_found (n : Node) (h : findMarked selAttr n = none) :
    dupMarkedIn n = (n, false) := by
  cases n with
  | text s => rfl
  | elem t a kids =>
    by_cases hm : isMarkedTrue selAttr (.elem t a kids)
    · simp [findMarked, hm] at h
    · have hkids : findMarkedList selAttr kids = none := by
        simpa [findMarked, hm] using h
      simp [dupMarkedIn, dupMarkedKids_not_found kids hkids]

theorem dupMarkedKids_not_found (l : List Node)
    (h : findMarkedList selAttr l = none) :
    dupMarkedKids l = (l, false) := by
  cases l with
  | nil => rfl
  | cons n rest =>
    obtain ⟨hn, hrest⟩ := findMarkedList_none_of_cons selAttr n rest h
    have hm : isMarkedTrue selAttr n = false :=
      isMarkedTrue_false_of_findMarked_none selAttr n hn
    simp [dupMarkedKids, hm, dupMarkedIn_not_found n hn,
      dupMarkedKids_not_found rest hrest]

end

theorem deleteMarkedKids_append (pre : List Node) (m : Node) (post : List Node)
    (hpre : pre.all (fun n => (findMarked selAttr n).isNone) = true)
    (hm : isMarkedTrue selAttr m = true) :
    deleteMarkedKids (pre ++ m :: post) = (pre ++ post, true) := by
  induction pre with
  | nil => simp [deleteMarkedKids, hm]
  | cons n pre' ih =>
    simp only [List.all_cons, Bool.and_eq_true, Option.isNone_iff_eq_none] at hpre
    obtain ⟨hn, hpre'⟩ := hpre
    have hmn : isMarkedTrue selAttr n = false :=
      isMarkedTrue_false_of_findMarked_none selAttr n hn
    simp [deleteMarkedKids, hmn, deleteMarkedIn_not_found n hn, ih hpre']

theorem dupMarkedKids_append (pre : List Node) (m : Node) (post : List Node)
    (hpre : pre.all (fun n => (findMarked selAttr n).isNone) = true)
    (hm : isMarkedTrue selAttr m = true) :
    dupMarkedKids (pre ++ m :: post) = (pre ++ m :: cloneClean m :: post, true) := by
  induction pre with
  | nil => simp [dupMarkedKids, hm]
  | cons n pre' ih =>
    simp only [List.all_cons, Bool.and_eq_true, Option.isNone_iff_eq_none] at hpre
    obtain ⟨hn, hpre'⟩ := hpre
    have hmn : isMarkedTrue selAttr n = false :=
      isMarkedTrue_false_of_findMarked_none selAttr n hn
    simp [dupMarkedKids, hmn, dupMarkedIn_not_found n hn, ih hpre']

/-- C6 (amended): delete with nothing marked is a silent no-op on both
paths; the keyboard Delete/Backspace path is additionally a no-op when the
selected element carries `contenteditable`; when a marked element (other
than the document root) exists, the keyboard path (for a non-editing
target) and the toolbar path (for any target, editing or not) remove
exactly that element from its parent's child list, clear the selection
state, hide the toolbar, and append exactly one commit. -/
theorem delete_spec (st : EState) :
    (findMarked selAttr st.root = none →
      handleDeleteElementToolbar st = st ∧ handleDeleteKeyDown st = st) ∧
    (∀ sel, findMarked selAttr st.root = some sel →
      hasAttrNode ceAttr sel = true → handleDeleteKeyDown st = st) ∧
    (∀ sel, findMarked selAttr st.root = some sel →
      hasAttrNode ceAttr sel = false → isMarkedTrue selAttr st.root = false →
      (handleDeleteKeyDown st).root = (deleteMarkedIn st.root).1 ∧
      (handleDeleteKeyDown st).selPath = none ∧
      (handleDeleteKeyDown st).toolbarVisible = false ∧
      (handleDeleteKeyDown st).committed =
        st.committed ++ [commitOf (deleteMarkedIn st.root).1]) ∧
    (∀ sel, findMarked selAttr st.root = some sel →
      isMarkedTrue selAttr st.root = false →
      (handleDeleteElementToolbar st).root = (deleteMarkedIn st.root).1 ∧
      (handleDeleteElementToolbar st).selPath = none ∧
      (handleDeleteElementToolbar st).toolbarVisible = false ∧
      (handleDeleteElementToolbar st).committed =
        st.committed ++ [commitOf (deleteMarkedIn st.root).1]) ∧
    (∀ pre m post, pre.all (fun n => (findMarked selAttr n).isNone) = true →
      isMarkedTrue selAttr m = true →
      deleteMarkedKids (pre ++ m :: post) = (pre ++ post, true)) := by
  refine ⟨?_, ?_, ?_, ?_, deleteMarkedKids_append⟩
  · intro h
    constructor
    · simp [handleDeleteElementToolbar, h]
    · simp [handleDeleteKeyDown, h]
  · intro sel h1 h2
    simp [handleDeleteKeyDown, h1, h2]
  · intro sel h1 h2 h3
    simp [handleDeleteKeyDown, h1, h2, h3]
  · intro sel h1 h3
    simp [handleDeleteElementToolbar, h1, h3]

/-- Witness for `delete_spec`: the keyboard delete on a concrete state with
a selected (non-editing) `div` clears the selection, hides the toolbar, and
commits once. -/
theorem delete_spec_witness :
    (handleDeleteKeyDown delState).root = (deleteMarkedIn delState.root).1 ∧
    (handleDeleteKeyDown delState).selPath = none ∧
    (handleDeleteKeyDown delState).toolbarVisible = false ∧
    (handleDeleteKeyDown delState).committed =
      delState.committed ++ [commitOf (deleteMarkedIn delState.root).1] :=
  (delete_spec delState).2.2.1
    (.elem ("div".toList) [(selAttr, trueVal)] [.text ("Hi".toList)])
    (by rfl) (by rfl) (by rfl)

/-- Counterexample to C6 as stated: the toolbar delete path
(`handleDeleteElement`, Editor.tsx:604) has no `contenteditable` guard — on a
state whose selected element is under active text editing it still removes
the element and commits, where the claim requires a no-op. -/
theorem toolbar_delete_deletes_editing_element :
    hasAttrNode ceAttr ((findMarked selAttr ceState.root).getD (.text [])) = true ∧
    (handleDeleteElementToolbar ceState).committed ≠ [] ∧
    countAttr selAttr ceState.root = 1 ∧
    countAttr selAttr (handleDeleteElementToolbar ceState).root = 0 := by
  refine ⟨by rfl, ?_, by rfl, by rfl⟩
  decide

/-- C7: duplicating a selected element (which always sits in some parent's
child list) inserts the cleaned clone immediately after the original: the
clone is a deep copy (same tag, same children) whose root loses the
`data-voxel-selected` marker, the original keeps its marker and position,
the selection state is untouched, and exactly one commit is appended. -/
theorem duplicate_spec (st : EState) :
    (∀ pre m post, pre.all (fun n => (findMarked selAttr n).isNone) = true →
      isMarkedTrue selAttr m = true →
      dupMarkedKids (pre ++ m :: post) = (pre ++ m :: cloneClean m :: post, true)) ∧
    (∀ t a kids, cloneClean (.elem t a kids) = .elem t (removeAttrKey selAttr a) kids) ∧
    (∀ t a kids, isMarkedTrue selAttr (cloneClean (.elem t a kids)) = false) ∧
    (∀ sel, findMarked selAttr st.root = some sel →
      isMarkedTrue selAttr st.root = false →
      (handleDuplicateElementIframe st).root = (dupMarkedIn st.root).1 ∧
      (handleDuplicateElementIframe st).selPath = st.selPath ∧
      (handleDuplicateElementIframe st).committed =
        st.committed ++ [commitOf (dupMarkedIn st.root).1]) := by
  refine ⟨dupMarkedKids_append, fun t a kids => rfl, ?_, ?_⟩
  · intro t a kids
    simp [cloneClean, isMarkedTrue, getAttrVal_remove_self]
  · intro sel h1 h2
    simp [handleDuplicateElementIframe, h1, h2]

/-- Witness for `duplicate_spec`: duplicating the selected `div` of a
concrete document keeps the original marked, inserts the unmarked clone
right after it, preserves the selection state and commits once. -/
theorem duplicate_spec_witness :
    dupMarkedKids
        [Node.elem ("div".toList) [(selAttr, trueVal)] [.text ("Hi".toList)]] =
      ([Node.elem ("div".toList) [(selAttr, trueVal)] [.text ("Hi".toList)],
        cloneClean (.elem ("div".toList) [(selAttr, trueVal)] [.text ("Hi".toList)])],
        true) ∧
    (handleDuplicateElementIframe dupState).selPath = dupState.selPath ∧
    (handleDuplicateElementIframe dupState).committed =
      dupState.committed ++ [commitOf (dupMarkedIn dupState.root).1] :=
  have h := (duplicate_spec dupState).2.2.2
    (.elem ("div".toList) [(selAttr, trueVal)] [.text ("Hi".toList)])
    (by rfl) (by rfl)
  ⟨(duplicate_spec dupState).1 []
      (.elem ("div".toList) [(selAttr, trueVal)] [.text ("Hi".toList)]) []
      (by rfl) (by rfl),
    h.2.1, h.2.2⟩

/-- C8: mutation operations invoked without their precondition are silent
no-ops: image replace with nothing selected or with a non-image selected
element, duplicate (either path) with nothing selected, and delete (either
path) with nothing selected all leave the whole editor state — tree,
selection, toolbar and committed documents — unchanged. -/
theorem mutation_precondition_noop (st : EState) (src : List Char) :
    (st.selPath = none →
      handleImageReplace src st = st ∧ handleDuplicateElementRef st = st) ∧
    (∀ p t a kids, st.selPath = some p →
      getAt st.root p = some (.elem t a kids) → t ≠ imgTag →
      handleImageReplace src st = st) ∧
    (findMarked selAttr st.root = none →
      handleDeleteElementToolbar st = st ∧ handleDeleteKeyDown st = st ∧
      handleDuplicateElementIframe st = st) := by
  refine ⟨?_, ?_, ?_⟩
  · intro h
    constructor
    · simp [handleImageReplace, h]
    · simp [handleDuplicateElementRef, h]
  · intro p t a kids hp hg ht
    simp [handleImageReplace, hp, hg, ht]
  · intro h
    refine ⟨?_, ?_, ?_⟩
    · simp [handleDeleteElementToolbar, h]
    · simp [handleDeleteKeyDown, h]
    · simp [handleDuplicateElementIframe, h]

/-- Witness for `mutation_precondition_noop`: with nothing selected
(`noneState`) every mutation operation returns the state unchanged, and
image replace on a concrete selected non-image `div` (`delState`) is a
no-op as well. -/
theorem mutation_precondition_noop_witness :
    (handleImageReplace ("u".toList) noneState = noneState ∧
      handleDuplicateElementRef noneState = noneState) ∧
    handleImageReplace ("u".toList) delState = delState ∧
    (handleDeleteElementToolbar noneState = noneState ∧
      handleDeleteKeyDown noneState = noneState ∧
      handleDuplicateElementIframe noneState = noneState) :=
  ⟨(mutation_precondition_noop noneState ("u".toList)).1 (by rfl),
    (mutation_precondition_noop delState ("u".toList)).2.1 [0, 0] ("div".toList)
      [(selAttr, trueVal)] [.text ("Hi".toList)] (by rfl) (by rfl) (by decide),
    (mutation_precondition_noop noneState ("u".toList)).2.2 (by rfl)⟩

/-- Counterexample to C1 as stated: a duplicate on a concrete state with the
injected style block in the head and a selected `div` in the body commits a
string from which the injected style block has been stripped but which still
contains the `data-voxel-selected` selection marker attribute. -/
theorem duplicate_commit_contains_selection_marker :
    (handleDuplicateElementIframe dupState).committed.length = 1 ∧
    containsSub selAttr
      (((handleDuplicateElementIframe dupState).committed).getLastD []) = true ∧
    containsSub opener
      (((handleDuplicateElementIframe dupState).committed).getLastD []) = false := by
  refine ⟨by rfl, ?_, ?_⟩ <;> decide

/-! ### Theorems: the debounced persistence bridge -/

theorem fireIfDue_not_due (t : Nat) (s : DState) (d : Nat)
    (hd : s.timerDeadline = some d) (ht : t < d) : fireIfDue t s = s := by
  unfold fireIfDue
  rw [hd]
  simp [Nat.not_le.mpr ht]

/-- Processing a burst of input events, each arriving before the pending
deadline, fires no commit: the doc tracks the last event's content and the
timer deadline is restarted 800 ms after each event. -/
theorem processInputs_burst :
    ∀ (l : List (Nat × List Char)) (s : DState) (d : Nat),
      s.timerDeadline = some d → arrivesBeforeDeadline d l = true →
      processInputs l s =
        { timerDeadline := some ((l.map (fun e => e.1 + 800)).getLastD d),
          docHtml := (l.map (fun e => e.2)).getLastD s.docHtml,
          editable := s.editable, committed := s.committed }
  | [], s, d, hd, _ => by
    simp only [processInputs, List.foldl_nil, List.map_nil, List.getLastD_nil]
    cases s
    simp_all
  | (t, h) :: rest, s, d, hd, hb => by
    simp only [arrivesBeforeDeadline, Bool.and_eq_true, decide_eq_true_eq] at hb
    obtain ⟨ht, hrest⟩ := hb
    have hfire : fireIfDue t s = s := fireIfDue_not_due t s d hd ht
    have hstep : processInputs ((t, h) :: rest) s =
        processInputs rest
          { s with docHtml := h, timerDeadline := some (t + 800) } := by
      simp only [processInputs, List.foldl_cons]
      congr 1
      simp [inputEv, hfire]
    rw [hstep, processInputs_burst rest _ (t + 800) rfl hrest]
    rw [List.map_cons, List.map_cons, List.getLastD_cons, List.getLastD_cons]

/-- C4: a burst of N ≥ 1 input events, each arriving less than 800 ms after
the previous one, starting with no timer pending and nothing committed,
commits nothing during the burst; each event restarts the timer to its own
time + 800; and once input quiesces, exactly one commit fires, whose content
is the stripped serialization as of the last event of the burst — no
intermediate state is committed. -/
theorem debounce_burst_single_commit (t0 : Nat) (h0 : List Char)
    (rest : List (Nat × List Char)) (doc0 : List Char) (ed : Bool)
    (hb : arrivesBeforeDeadline (t0 + 800) rest = true) :
    (processInputs ((t0, h0) :: rest)
        { timerDeadline := none, docHtml := doc0, editable := ed,
          committed := [] }).committed = [] ∧
    (processInputs ((t0, h0) :: rest)
        { timerDeadline := none, docHtml := doc0, editable := ed,
          committed := [] }).timerDeadline =
      some ((rest.map (fun e => e.1 + 800)).getLastD (t0 + 800)) ∧
    (flushEnd (processInputs ((t0, h0) :: rest)
        { timerDeadline := none, docHtml := doc0, editable := ed,
          committed := [] })).committed =
      [stripVoxelStyles ((rest.map (fun e => e.2)).getLastD h0)] ∧
    (flushEnd (processInputs ((t0, h0) :: rest)
        { timerDeadline := none, docHtml := doc0, editable := ed,
          committed := [] })).timerDeadline = none := by
  have hstep : processInputs ((t0, h0) :: rest)
      { timerDeadline := none, docHtml := doc0, editable := ed, committed := [] } =
      processInputs rest
        { timerDeadline := some (t0 + 800), docHtml := h0, editable := ed,
          committed := [] } := by
    simp [processInputs, List.foldl_cons, inputEv, fireIfDue]
  rw [hstep, processInputs_burst rest _ (t0 + 800) rfl hb]
  simp [flushEnd]

/-- Witness for `debounce_burst_single_commit`: three keystrokes at 0, 500
and 1000 ms (each gap below 800 ms) commit exactly once, with the stripped
content of the last keystroke. -/
theorem debounce_burst_single_commit_witness :
    (processInputs [(0, "a".toList), (500, "ab".toList), (1000, "abc".toList)]
        { timerDeadline := none, docHtml := [], editable := true,
          committed := [] }).committed = [] ∧
    (flushEnd (processInputs
        [(0, "a".toList), (500, "ab".toList), (1000, "abc".toList)]
        { timerDeadline := none, docHtml := [], editable := true,
          committed := [] })).committed =
      [stripVoxelStyles
        (([(500, "ab".toList), (1000, "abc".toList)].map
          (fun e => e.2)).getLastD ("a".toList))] :=
  have h := debounce_burst_single_commit 0 ("a".toList)
    [(500, "ab".toList), (1000, "abc".toList)] [] true (by decide)
  ⟨h.1, h.2.2.1⟩

/-- Blur while a timer is pending (and not yet due) cancels the timer,
drops the editable flag, and commits the current content synchronously. -/
theorem blurEv_pending (tb D : Nat) (H : List Char) (C : List (List Char))
    (htb : tb < D) :
    blurEv tb { timerDeadline := some D, docHtml := H, editable := true,
                committed := C } =
      { timerDeadline := none, docHtml := H, editable := false,
        committed := C ++ [stripVoxelStyles H] } := by
  unfold blurEv
  rw [fireIfDue_not_due tb _ D rfl htb]
  simp

/-- C5: after a burst of input events (each within the debounce window) a
blur arriving before the pending deadline cancels the timer, removes the
editable flag, and synchronously commits exactly the stripped content as of
blur time (the last keystroke's content) — and no further commit can follow,
because the timer is cancelled (`flushEnd` is a no-op afterwards). -/
theorem blur_flush_commit (t0 : Nat) (h0 : List Char)
    (rest : List (Nat × List Char)) (tb : Nat) (doc0 : List Char)
    (hb : arrivesBeforeDeadline (t0 + 800) rest = true)
    (htb : tb < (rest.map (fun e => e.1 + 800)).getLastD (t0 + 800)) :
    (blurEv tb (processInputs ((t0, h0) :: rest)
        { timerDeadline := none, docHtml := doc0, editable := true,
          committed := [] })).committed =
      [stripVoxelStyles ((rest.map (fun e => e.2)).getLastD h0)] ∧
    (blurEv tb (processInputs ((t0, h0) :: rest)
        { timerDeadline := none, docHtml := doc0, editable := true,
          committed := [] })).timerDeadline = none ∧
    (blurEv tb (processInputs ((t0, h0) :: rest)
        { timerDeadline := none, docHtml := doc0, editable := true,
          committed := [] })).editable = false ∧
    flushEnd (blurEv tb (processInputs ((t0, h0) :: rest)
        { timerDeadline := none, docHtml := doc0, editable := true,
          committed := [] })) =
      blurEv tb (processInputs ((t0, h0) :: rest)
        { timerDeadline := none, docHtml := doc0, editable := true,
          committed := [] }) := by
  have hstep : processInputs ((t0, h0) :: rest)
      { timerDeadline := none, docHtml := doc0, editable := true, committed := [] } =
      processInputs rest
        { timerDeadline := some (t0 + 800), docHtml := h0, editable := true,
          committed := [] } := by
    simp [processInputs, List.foldl_cons, inputEv, fireIfDue]
  rw [hstep, processInputs_burst rest _ (t0 + 800) rfl hb]
  dsimp only
  rw [blurEv_pending tb _ _ _ htb]
  simp [flushEnd]

/-- Witness for `blur_flush_commit`: a keystroke at 0 ms and one at 500 ms
followed by a blur at 700 ms (before the 1300 ms deadline) commit exactly the
blur-time content once, with nothing further pending. -/
theorem blur_flush_commit_witness :
    (blurEv 700 (processInputs [(0, "a".toList), (500, "ab".toList)]
        { timerDeadline := none, docHtml := [], editable := true,
          committed := [] })).committed =
      [stripVoxelStyles (([(500, "ab".toList)].map (fun e => e.2)).getLastD
        ("a".toList))] ∧
    (blurEv 700 (processInputs [(0, "a".toList), (500, "ab".toList)]
        { timerDeadline := none, docHtml := [], editable := true,
          committed := [] })).timerDeadline = none ∧
    (blurEv 700 (processInputs [(0, "a".toList), (500, "ab".toList)]
        { timerDeadline := none, docHtml := [], editable := true,
          committed := [] })).editable = false :=
  have h := blur_flush_commit 0 ("a".toList) [(500, "ab".toList)] 700 []
    (by decide) (by decide)
  ⟨h.1, h.2.1, h.2.2.1⟩

/-! ### Theorems: generation response cleaning and the mock fallback -/

theorem isJsWs_backtick : isJsWs '`' = false := by decide

/-- A string wrapped in fence markers has no surrounding whitespace, so the
initial trim leaves it unchanged. -/
theorem trimList_fenced (s : List Char) :
    trimList (fenceHtml ++ s ++ fence) = fenceHtml ++ s ++ fence := by
  have he : fenceHtml ++ s ++ fence = '`' :: (("``html".toList ++ s) ++ fence) := rfl
  have h1 : (fenceHtml ++ s ++ fence).dropWhile isJsWs = fenceHtml ++ s ++ fence := by
    rw [he, List.dropWhile_cons, isJsWs_backtick]
    simp
  have h2 : (fenceHtml ++ s ++ fence).reverse.dropWhile isJsWs =
      (fenceHtml ++ s ++ fence).reverse := by
    rw [List.reverse_append]
    have hf : (fence.reverse : List Char) = '`' :: ('`' :: ('`' :: [])) := rfl
    rw [hf]
    rw [List.cons_append, List.dropWhile_cons, isJsWs_backtick]
    simp
  unfold trimList
  rw [h1, h2, List.reverse_reverse]

/-- C9 (amended): `cleanHtmlResponse` always trims surrounding whitespace;
beyond that it only strips fence markers: a string with no leading/trailing
whitespace that does not start with a fence marker (`` ```html `` or
`` ``` ``) and does not end with `` ``` `` is returned entirely unchanged,
and a body wrapped in `` ```html `` / `` ``` `` fences comes back as exactly
the trimmed body. (Unconditional "never alter otherwise" fails because of
the trim: see the whitespace counterexample. The only language tag the code
recognizes is `html`; any other tag's text is left in the output.) -/
theorem clean_html_amended (s : List Char) :
    (trimList s = s → fenceHtml.isPrefixOf s = false → fence.isPrefixOf s = false →
      fence.isSuffixOf s = false → cleanHtmlResponse s = s) ∧
    cleanHtmlResponse (fenceHtml ++ s ++ fence) = trimList s := by
  constructor
  · intro h0 h1 h2 h3
    unfold cleanHtmlResponse
    rw [h0]
    rw [show stripLeadingFence s = s by unfold stripLeadingFence; rw [h1, h2]; simp]
    rw [show stripTrailingFence s = s by unfold stripTrailingFence; rw [h3]; simp]
    exact h0
  · unfold cleanHtmlResponse
    rw [trimList_fenced]
    have hpre : fenceHtml.isPrefixOf (fenceHtml ++ s ++ fence) = true := by
      rw [List.isPrefixOf_iff_prefix, List.append_assoc]
      exact List.prefix_append _ _
    have hdrop : (fenceHtml ++ s ++ fence).drop 7 = s ++ fence := by
      have h7 : (7 : Nat) = fenceHtml.length := rfl
      rw [h7, List.append_assoc, List.drop_left]
    rw [show stripLeadingFence (fenceHtml ++ s ++ fence) = s ++ fence by
      unfold stripLeadingFence
      rw [if_pos hpre]
      exact hdrop]
    have hsuf : fence.isSuffixOf (s ++ fence) = true := by
      rw [List.isSuffixOf_iff_suffix]
      exact List.suffix_append _ _
    have htake : (s ++ fence).take ((s ++ fence).length - 3) = s := by
      have hlen : (s ++ fence).length - 3 = s.length := by
        have h3 : (fence.length : Nat) = 3 := rfl
        rw [List.length_append, h3]
        omega
      rw [hlen, List.take_left]
    rw [show stripTrailingFence (s ++ fence) = s by
      unfold stripTrailingFence
      rw [if_pos hsuf]
      exact htake]

/-- Witness for `clean_html_amended` at a concrete trimmed, fence-free
fragment: it passes through unchanged, and the same fragment wrapped in
fences is unwrapped to exactly itself. -/
theorem clean_html_amended_witness :
    cleanHtmlResponse ("<div>Hello</div>".toList) = "<div>Hello</div>".toList ∧
    cleanHtmlResponse (fenceHtml ++ "<div>Hello</div>".toList ++ fence) =
      trimList ("<div>Hello</div>".toList) :=
  ⟨(clean_html_amended ("<div>Hello</div>".toList)).1 (by decide) (by decide)
      (by decide) (by decide),
    (clean_html_amended ("<div>Hello</div>".toList)).2⟩

/-- Counterexample to C9 as stated: a provider string with no fence markers
but with surrounding whitespace is not returned unchanged — the cleaning
step always trims. -/
theorem clean_html_trims_fence_free_string :
    cleanHtmlResponse (" <p>hi</p> ".toList) ≠ " <p>hi</p> ".toList := by decide

/-- C10: with no provider configured, generating with the instruction
`add a button` shows no error, shows the mock/fallback notice, and previews
the deterministic keyword-driven mock response — which is the fixed button
snippet, so the same instruction always yields the same output — and that
response contains a `<button`-tagged element. -/
theorem mock_generation_add_button :
    (handleGenerate false noResp ("add a button".toList)).errorShown = false ∧
    (handleGenerate false noResp ("add a button".toList)).mockNoticeShown = true ∧
    (handleGenerate false noResp ("add a button".toList)).generatedHtml =
      some (getMockResponse ("add a button".toList)) ∧
    getMockResponse ("add a button".toList) = mockButton ∧
    containsSub ("<button".toList) mockButton = true := by
  refine ⟨by rfl, by rfl, by rfl, by rfl, by decide⟩

end VoxelDemo
